import Mathlib

/- Verification of the outfit-planner recommendation pipeline: a shallow embedding of
the UsageLedger quota gate, the catalog normalization invariant, the request
interpreter, the pair-scoring fallback, the combination selector, the composite
renderer fallback, and the frontend usage client, together with theorems settling the
specified properties. -/

namespace OutfitPlanner

/-! ## UsageLedger -/

/-- Modelled from the spec: the UsageLedger state for one counter kind (search or
render); backend/app/services/usage_tracker.py is not under src/. It keeps a
per-identity counter for every identity key plus one global counter; the search and
render ledgers of the system are two instances of this model. -/
structure LedgerState where
  perId : String → Nat
  globalCount : Nat

/-- Modelled from the spec: the fixed lifetime caps, a per-identity cap and a global
cap shared across all identities. -/
structure LedgerConfig where
  idCap : Nat
  globalCap : Nat

/-- Modelled from the spec: UsageLedger.checkAndIncrement as the atomic transition the
spec stipulates (atomic check-and-increment, serialized per identity key and global
counter). Both caps are checked simultaneously; on success both counters are
incremented in the same step, otherwise the state is unchanged. The returned flag is
the allowed field of the result. -/
def checkAndIncrement (cfg : LedgerConfig) (s : LedgerState) (u : String) :
    Bool × LedgerState :=
  if s.perId u < cfg.idCap ∧ s.globalCount < cfg.globalCap then
    (true,
      { perId := fun j => if j = u then s.perId j + 1 else s.perId j,
        globalCount := s.globalCount + 1 })
  else
    (false, s)

/-- A serialization of N simultaneous checkAndIncrement calls for one identity: since
the transition is atomic, any concurrent execution is an interleaving of these steps.
Returns the list of allowed flags in execution order. -/
def runCalls (cfg : LedgerConfig) (u : String) : Nat → LedgerState → List Bool
  | 0, _ => []
  | Nat.succ n, s =>
    let r := checkAndIncrement cfg s u
    r.1 :: runCalls cfg u n r.2

/-- Run a sequence of checkAndIncrement calls, one per identity key in the list. -/
def runSeq (cfg : LedgerConfig) : List String → LedgerState → LedgerState
  | [], s => s
  | u :: us, s => runSeq cfg us (checkAndIncrement cfg s u).2

/-- The fresh ledger: no identity has used anything and the global counter is zero. -/
def freshLedger : LedgerState :=
  { perId := fun _ => 0, globalCount := 0 }

/-! ## Catalog items and normalization -/

/-- The canonical normalized item shape shared by both catalog connectors (the
ProductItem shape documented in src/unnamed/part_001). Prices are modelled as
rationals. -/
structure Item where
  id : String
  name : String
  category : String
  price : ℚ
  currency : String
  image_url : String
  buy_url : String
  brand : String
  description : String
deriving DecidableEq

/-- Modelled from the spec: a raw source record before normalization; the backend
connector code (backend/app/services/asos_service.py, amazon_service.py) is not under
src/. Any textual field may be missing (empty string) and the price may be
non-positive. -/
structure RawRecord where
  id : String
  name : String
  category : String
  price : ℚ
  image_url : String
  buy_url : String
  brand : String
  description : String
deriving DecidableEq

/-- Modelled from the spec: the required-fields check of CatalogConnector
normalization: id, name, image reference and purchase reference must be non-empty and
the price positive; a record failing any check is dropped (returns none). -/
def normalizeRecord (r : RawRecord) : Option Item :=
  if r.id ≠ "" ∧ r.name ≠ "" ∧ r.image_url ≠ "" ∧ r.buy_url ≠ "" ∧ 0 < r.price then
    some
      { id := r.id, name := r.name, category := r.category, price := r.price,
        currency := "INR", image_url := r.image_url, buy_url := r.buy_url,
        brand := r.brand, description := r.description }
  else
    none

/-- Modelled from the spec: normalization of a fetched batch of raw records; dropped
records are silently removed. -/
def normalize (rs : List RawRecord) : List Item :=
  rs.filterMap normalizeRecord

/-! ## RequestInterpreter -/

/-- The structured facet set produced once per request. -/
structure ParsedRequest where
  mood : String
  location : String
  occasion : String
  style : String
  colors : List String
  season : String
  formality : String
  keywords : List String
deriving DecidableEq

/-- Split a character stream into space-separated words, accumulating the current
word in reverse; empty words are dropped. -/
def wordsAux : List Char → List Char → List String
  | [], acc => if acc = [] then [] else [String.mk acc.reverse]
  | c :: cs, acc =>
    if c = ' ' then
      if acc = [] then wordsAux cs [] else String.mk acc.reverse :: wordsAux cs []
    else wordsAux cs (c :: acc)

/-- Lower-case whitespace tokenization of free text, dropping empty tokens. -/
def tokenize (text : String) : List String :=
  wordsAux (text.toList.map Char.toLower) []

/-- Fixed mood vocabulary of the deterministic fallback extractor. -/
def moodVocab : List String :=
  ["relaxed", "energetic", "confident", "romantic", "comfortable"]

/-- Fixed location vocabulary of the deterministic fallback extractor. -/
def locationVocab : List String :=
  ["beach", "office", "party", "gym", "home"]

/-- Fixed occasion vocabulary of the deterministic fallback extractor. -/
def occasionVocab : List String :=
  ["casual", "formal", "party", "business", "date"]

/-- Fixed style vocabulary of the deterministic fallback extractor. -/
def styleVocab : List String :=
  ["casual", "formal", "streetwear", "bohemian", "sporty"]

/-- Fixed season vocabulary of the deterministic fallback extractor. -/
def seasonVocab : List String :=
  ["summer", "winter", "spring", "fall"]

/-- Fixed formality vocabulary of the deterministic fallback extractor. -/
def formalityVocab : List String :=
  ["casual", "semi-formal", "formal"]

/-- Fixed color vocabulary of the deterministic fallback extractor. -/
def colorVocab : List String :=
  ["colorful", "bright", "dark", "pastel", "red", "blue", "black", "white"]

/-- First token matching a fixed vocabulary, with a default facet value. -/
def firstMatch (vocab : List String) (tokens : List String) (dflt : String) : String :=
  match tokens.find? (fun t => vocab.contains t) with
  | some t => t
  | none => dflt

/-- Modelled from the spec: the deterministic keyword-bag fallback extractor of
RequestInterpreter (backend llm_service.parse_outfit_prompt is not under src/). It
tokenizes the text, matches the fixed vocabularies for each facet, and always produces
the keywords list from the raw tokens. -/
def fallbackParse (text : String) : ParsedRequest :=
  let toks := tokenize text
  { mood := firstMatch moodVocab toks "relaxed",
    location := firstMatch locationVocab toks "casual",
    occasion := firstMatch occasionVocab toks "casual",
    style := firstMatch styleVocab toks "casual",
    colors := toks.filter (fun t => colorVocab.contains t),
    season := firstMatch seasonVocab toks "all-season",
    formality := firstMatch formalityVocab toks "casual",
    keywords := toks }

/-- Modelled from the spec: RequestInterpreter.parse. The completion-service response
is an Option: none models every failure (timeout, non-parseable response, empty
output). A structured object whose keywords list is empty counts as malformed schema
(the spec requires ParsedRequest to be always populated) and also takes the fallback.
The function is total, so parse never raises to the caller. -/
def parse (text : String) (svc : Option ParsedRequest) : ParsedRequest :=
  match svc with
  | some r => if r.keywords = [] then fallbackParse text else r
  | none => fallbackParse text

/-! ## PairScorer fallback -/

/-- The coarse style buckets of the PairScorer fallback. -/
inductive StyleBucket
  | casual
  | formal
  | sporty
deriving DecidableEq

/-- Keyword list mapping an item to the sporty bucket. -/
def sportyWords : List String :=
  ["sport", "sporty", "gym", "running", "athletic", "workout", "track", "jogger"]

/-- Keyword list mapping an item to the formal bucket. -/
def formalWords : List String :=
  ["formal", "suit", "blazer", "office", "business", "dress", "trousers", "oxford"]

/-- Modelled from the spec: the category/keyword heuristic of the PairScorer fallback
(backend llm_service.check_outfit_compatibility fallback is not under src/): tokenize
the item name, description and category and look for sporty then formal keywords;
casual is the default bucket. -/
def styleBucket (it : Item) : StyleBucket :=
  let toks := tokenize (it.name ++ " " ++ it.description ++ " " ++ it.category)
  if toks.any (fun t => sportyWords.contains t) then StyleBucket.sporty
  else if toks.any (fun t => formalWords.contains t) then StyleBucket.formal
  else StyleBucket.casual

/-- The pairwise stylistic-match judgment between two items. -/
structure CompatibilityVerdict where
  compatible : Bool
  score : ℚ
deriving DecidableEq

/-- Modelled from the spec: the deterministic fallback rule of PairScorer used when
the primary model-assisted call fails: if the two coarse style buckets match, emit
compatible = true with score 0.5, otherwise compatible = false with score 0.2. It is a
plain total function, so it never raises. -/
def fallbackScore (top bottom : Item) : CompatibilityVerdict :=
  if styleBucket top = styleBucket bottom then
    { compatible := true, score := 1/2 }
  else
    { compatible := false, score := 1/5 }

/-! ## CombinationSelector -/

/-- The fixed bound M on each side of the cartesian product (3 x 3 pairs). -/
def sideBound : Nat := 3

/-- Modelled from the spec: price similarity, a monotonic function of the normalized
absolute price difference: 1 at equal price, decreasing toward 0 as the gap grows
relative to the larger price. -/
def priceSimilarity (p q : ℚ) : ℚ :=
  if max p q = 0 then 1 else 1 - |p - q| / max p q

/-- Modelled from the spec: position bonus rewarding items ranked earlier in their
source search results: 1 - (topRank + bottomRank) / (2 * M). -/
def positionBonus (i j : Nat) : ℚ :=
  1 - ((i : ℚ) + (j : ℚ)) / (2 * (sideBound : ℚ))

/-- A scored top+bottom pair eligible for recommendation; the compatibility verdict
that produced it is recorded alongside the weighted match score. -/
structure Combination where
  top : Item
  bottom : Item
  matchScore : ℚ
  totalPrice : ℚ
  compatible : Bool
  compatScore : ℚ
deriving DecidableEq

/-- Modelled from the spec: scoring of one top-bottom pair inside
create_outfit_combinations: matchScore = 0.5 * compatibility + 0.3 * priceSimilarity +
0.2 * positionBonus, where i and j are the source ranks of the two items. -/
def scorePair (verdict : Item → Item → CompatibilityVerdict)
    (i : Nat) (t : Item) (j : Nat) (b : Item) : Combination :=
  let v := verdict t b
  { top := t, bottom := b,
    matchScore := (1/2) * v.score + (3/10) * priceSimilarity t.price b.price
      + (1/5) * positionBonus i j,
    totalPrice := t.price + b.price,
    compatible := v.compatible,
    compatScore := v.score }

/-- Modelled from the spec: the bounded cartesian product of scored pairs: each side
is truncated to M items, and ranks are the positions in the truncated lists. The
verdict function abstracts PairScorer (primary call or its fallback). -/
def allPairs (verdict : Item → Item → CompatibilityVerdict)
    (tops bottoms : List Item) : List Combination :=
  ((tops.take sideBound).enum).flatMap (fun p =>
    ((bottoms.take sideBound).enum).map (fun q => scorePair verdict p.1 p.2 q.1 q.2))

/-- Modelled from the spec: the retention filter of create_outfit_combinations: a
combination is kept only if compatible is true or the compatibility score is at least
0.4. -/
def retainPair (c : Combination) : Bool :=
  c.compatible || decide ((2/5 : ℚ) ≤ c.compatScore)

/-- The selector ordering: descending match score, ties broken by lower total price. -/
def comboOrder (a b : Combination) : Prop :=
  b.matchScore < a.matchScore ∨
    (a.matchScore = b.matchScore ∧ a.totalPrice ≤ b.totalPrice)

instance : DecidableRel comboOrder := by
  unfold comboOrder
  infer_instance

instance : IsTotal Combination comboOrder where
  total a b := by
    rcases lt_trichotomy a.matchScore b.matchScore with h | h | h
    · exact Or.inr (Or.inl h)
    · rcases le_total a.totalPrice b.totalPrice with hp | hp
      · exact Or.inl (Or.inr ⟨h, hp⟩)
      · exact Or.inr (Or.inr ⟨h.symm, hp⟩)
    · exact Or.inl (Or.inl h)

instance : IsTrans Combination comboOrder where
  trans a b c hab hbc := by
    rcases hab with h1 | ⟨h1, p1⟩ <;> rcases hbc with h2 | ⟨h2, p2⟩
    · exact Or.inl (h2.trans h1)
    · exact Or.inl (h2 ▸ h1)
    · exact Or.inl (h1 ▸ h2)
    · exact Or.inr ⟨h1.trans h2, p1.trans p2⟩

/-- Modelled from the spec: product_service.create_outfit_combinations
(backend/app/services/product_service.py is not under src/): score the bounded
cartesian product of tops and bottoms, keep only combinations passing the retention
filter, sort descending by match score with ties broken by lower total price (stable
insertion sort), and truncate to the top 3. -/
def create_outfit_combinations (verdict : Item → Item → CompatibilityVerdict)
    (tops bottoms : List Item) : List Combination :=
  (List.insertionSort comboOrder
    ((allPairs verdict tops bottoms).filter retainPair)).take 3

/-! ## ItemFilter -/

/-- Chunk a list into consecutive batches of size B; a batch size of 0 degenerates to
a single batch holding the whole list. -/
def chunkList (B : Nat) (l : List α) : List (List α) :=
  match l with
  | [] => []
  | x :: xs =>
    if h : B = 0 then [x :: xs]
    else (x :: xs).take B :: chunkList B ((x :: xs).drop B)
termination_by l.length
decreasing_by
  simp only [List.length_drop, List.length_cons]
  exact Nat.sub_lt (Nat.succ_pos _) (Nat.pos_of_ne_zero h)

/-- Modelled from the spec: the retained side of ItemFilter.filter
(backend llm_service.classify_product_gender is not under src/). Items are processed
in batches; the per-batch decision function is abstract, covering both the primary
model-assisted classification and the deterministic keyword-exclusion fallback a
failed batch falls back to: either path partitions the batch. -/
def filterRetained (B : Nat) (dec : List Item → Item → Bool)
    (items : List Item) : List Item :=
  (chunkList B items).flatMap (fun batch => batch.filter (dec batch))

/-- Modelled from the spec: the rejected side of ItemFilter.filter, the complement of
the per-batch decision. -/
def filterRejected (B : Nat) (dec : List Item → Item → Bool)
    (items : List Item) : List Item :=
  (chunkList B items).flatMap (fun batch => batch.filter (fun it => !(dec batch it)))

/-! ## CompositeRenderer -/

/-- The render artifact states. -/
inductive RenderStatus
  | pending
  | rendered
  | degraded
  | failed
deriving DecidableEq

/-- A render artifact: an image reference together with its status. -/
structure RenderArtifact where
  imageRef : String
  status : RenderStatus
deriving DecidableEq

/-- Modelled from the spec: the deterministic fallback compositor (fixed-anchor
overlay of extracted garment cutouts); its reference names the overlay inputs and is
never empty. -/
def fallbackComposite (modelImg topImg bottomImg : String) : String :=
  "overlay-preview:" ++ modelImg ++ "+" ++ topImg ++ "+" ++ bottomImg

/-- Modelled from the spec: tryon_service.generate_full_outfit_tryon
(backend/app/services/tryon_service.py is not under src/). Two passes, each an
external image-generation call modelled as an Option-valued function (none = timeout,
error or malformed output): pass 1 composites the top onto the model image, pass 2 the
bottom onto the pass-1 result. Either pass failing yields a degraded artifact from the
deterministic fallback compositor instead of failing the request. -/
def generate_full_outfit_tryon (pass1 pass2 : String → String → Option String)
    (modelImg topImg bottomImg : String) : RenderArtifact :=
  match pass1 modelImg topImg with
  | none =>
    { imageRef := fallbackComposite modelImg topImg bottomImg,
      status := RenderStatus.degraded }
  | some img1 =>
    match pass2 img1 bottomImg with
    | none =>
      { imageRef := fallbackComposite modelImg topImg bottomImg,
        status := RenderStatus.degraded }
    | some img2 => { imageRef := img2, status := RenderStatus.rendered }

/-! ## Frontend usage client -/

/-- Usage stats as returned by the backend usage endpoint and consumed by the
frontend (src/unnamed/part_003 and src/frontend/src/App.jsx). -/
structure UsageStats where
  browse_count : Nat
  tryon_count : Nat
  browse_limit : Nat
  tryon_limit : Nat
deriving DecidableEq

/-- The fixed default object returned by API.getUsage when the request fails
(src/unnamed/part_003, catch branch of getUsage). -/
def defaultUsage : UsageStats :=
  { browse_count := 0, tryon_count := 0, browse_limit := 3, tryon_limit := 1 }

/-- API.getUsage from src/unnamed/part_003: the awaited request either yields response
data or an error; the catch branch swallows the error and returns the fixed default,
so the method never throws. -/
def getUsage (resp : Except String UsageStats) : UsageStats :=
  match resp with
  | Except.ok data => data
  | Except.error _ => defaultUsage

/-- The canBrowse check of src/frontend/src/App.jsx line 118. -/
def canBrowse (u : UsageStats) : Bool :=
  u.browse_count < u.browse_limit

/-- The canTryOn check of src/frontend/src/App.jsx line 119. -/
def canTryOn (u : UsageStats) : Bool :=
  u.tryon_count < u.tryon_limit

/-! ## Concrete sample inputs used by the witnesses -/

/-- A concrete normalized top item. -/
def itemTop : Item :=
  { id := "t1", name := "blue cotton tee", category := "top", price := 900,
    currency := "INR", image_url := "https://img.example/tee.jpg",
    buy_url := "https://shop.example/tee", brand := "Brandy",
    description := "blue cotton tee" }

/-- A concrete normalized bottom item. -/
def itemBottom : Item :=
  { id := "b1", name := "relaxed jeans", category := "bottom", price := 900,
    currency := "INR", image_url := "https://img.example/jeans.jpg",
    buy_url := "https://shop.example/jeans", brand := "Brandy",
    description := "relaxed jeans" }

/-- A constant verdict function standing for a primary PairScorer result. -/
def verdictConst : Item → Item → CompatibilityVerdict :=
  fun _ _ => { compatible := true, score := 4/5 }

/-- The single combination the selector produces from the two sample items under the
constant verdict. -/
def sampleCombo : Combination :=
  scorePair verdictConst 0 itemTop 0 itemBottom

/-- A raw record passing every required-fields check. -/
def recGood : RawRecord :=
  { id := "a1", name := "linen shirt", category := "top", price := 700,
    image_url := "https://img.example/shirt.jpg",
    buy_url := "https://shop.example/shirt", brand := "Brandy",
    description := "linen shirt" }

/-- The item recGood normalizes to. -/
def itemGood : Item :=
  { id := "a1", name := "linen shirt", category := "top", price := 700,
    currency := "INR", image_url := "https://img.example/shirt.jpg",
    buy_url := "https://shop.example/shirt", brand := "Brandy",
    description := "linen shirt" }

/-- A raw record with an empty id, which normalization must drop. -/
def recBad : RawRecord :=
  { id := "", name := "linen shirt", category := "top", price := 700,
    image_url := "https://img.example/shirt.jpg",
    buy_url := "https://shop.example/shirt", brand := "Brandy",
    description := "linen shirt" }

/-- A concrete per-batch decision function: retain tops. -/
def decByCategory : List Item → Item → Bool :=
  fun _ it => it.category == "top"

/-- A ledger state in which every identity has already used its single slot. -/
def cappedState : LedgerState :=
  { perId := fun _ => 1, globalCount := 5 }

/-! ## UsageLedger lemmas -/

theorem checkAndIncrement_blocked_of_idCap {cfg : LedgerConfig} {s : LedgerState}
    {u : String} (h : cfg.idCap ≤ s.perId u) :
    checkAndIncrement cfg s u = (false, s) := by
  unfold checkAndIncrement
  rw [if_neg]
  rintro ⟨h1, -⟩
  exact absurd h1 (not_lt.mpr h)

theorem checkAndIncrement_blocked_of_globalCap {cfg : LedgerConfig} {s : LedgerState}
    (h : cfg.globalCap ≤ s.globalCount) (u : String) :
    checkAndIncrement cfg s u = (false, s) := by
  unfold checkAndIncrement
  rw [if_neg]
  rintro ⟨-, h2⟩
  exact absurd h2 (not_lt.mpr h)

theorem perId_le_checkAndIncrement (cfg : LedgerConfig) (s : LedgerState)
    (u v : String) : s.perId v ≤ ((checkAndIncrement cfg s u).2).perId v := by
  unfold checkAndIncrement
  split
  · dsimp only
    split
    · exact Nat.le_succ _
    · exact Nat.le_refl _
  · exact Nat.le_refl _

theorem globalCount_le_checkAndIncrement (cfg : LedgerConfig) (s : LedgerState)
    (u : String) : s.globalCount ≤ ((checkAndIncrement cfg s u).2).globalCount := by
  unfold checkAndIncrement
  split
  · exact Nat.le_succ _
  · exact Nat.le_refl _

theorem perId_le_runSeq (cfg : LedgerConfig) (ops : List String) (s : LedgerState)
    (v : String) : s.perId v ≤ (runSeq cfg ops s).perId v := by
  induction ops generalizing s with
  | nil => exact Nat.le_refl _
  | cons u us ih =>
    exact Nat.le_trans (perId_le_checkAndIncrement cfg s u v)
      (ih (checkAndIncrement cfg s u).2)

theorem globalCount_le_runSeq (cfg : LedgerConfig) (ops : List String)
    (s : LedgerState) : s.globalCount ≤ (runSeq cfg ops s).globalCount := by
  induction ops generalizing s with
  | nil => exact Nat.le_refl _
  | cons u us ih =>
    exact Nat.le_trans (globalCount_le_checkAndIncrement cfg s u)
      (ih (checkAndIncrement cfg s u).2)

theorem runCalls_blocked_of_idCap {cfg : LedgerConfig} {s : LedgerState} {u : String}
    (h : cfg.idCap ≤ s.perId u) (n : Nat) :
    runCalls cfg u n s = List.replicate n false := by
  induction n with
  | zero => rfl
  | succ m ih =>
    rw [runCalls]
    rw [checkAndIncrement_blocked_of_idCap h]
    rw [List.replicate_succ]
    exact congrArg (List.cons false) ih

/-- C1: for every N >= 1, N simultaneous checkAndIncrement calls for one fresh
identity with per-identity cap 1 (serialized arbitrarily, which is what atomicity
makes of concurrent execution) yield exactly 1 allowed = true and N - 1 allowed =
false; moreover two calls against the same identity, or against the global counter,
never both succeed when only one slot remains. -/
theorem c1_checkAndIncrement_exactly_one_allowed (cfg : LedgerConfig)
    (s : LedgerState) (u v w : String) (N : Nat) (hcap : cfg.idCap = 1)
    (hfresh : s.perId u = 0) (hglob : s.globalCount < cfg.globalCap) (hN : 1 ≤ N) :
    (runCalls cfg u N s).count true = 1
    ∧ (∀ t : LedgerState, t.perId v + 1 = cfg.idCap →
        ¬((checkAndIncrement cfg t v).1 = true ∧
          (checkAndIncrement cfg (checkAndIncrement cfg t v).2 v).1 = true))
    ∧ (∀ t : LedgerState, t.globalCount + 1 = cfg.globalCap →
        ¬((checkAndIncrement cfg t v).1 = true ∧
          (checkAndIncrement cfg (checkAndIncrement cfg t v).2 w).1 = true)) := by
  refine ⟨?_, ?_, ?_⟩
  · obtain ⟨M, rfl⟩ : ∃ M, N = M + 1 := ⟨N - 1, (Nat.succ_pred_eq_of_pos hN).symm⟩
    rw [runCalls]
    have hcond : s.perId u < cfg.idCap ∧ s.globalCount < cfg.globalCap := by
      refine ⟨?_, hglob⟩
      rw [hcap, hfresh]
      exact Nat.zero_lt_one
    rw [checkAndIncrement, if_pos hcond]
    dsimp only
    have hblocked : cfg.idCap ≤ (if u = u then s.perId u + 1 else s.perId u) := by
      rw [if_pos rfl, hfresh, hcap]
    rw [runCalls_blocked_of_idCap hblocked M]
    rw [List.count_cons_self]
    rw [List.count_replicate]
    simp
  · intro t hslot hboth
    obtain ⟨h1, h2⟩ := hboth
    have hcond : t.perId v < cfg.idCap ∧ t.globalCount < cfg.globalCap := by
      by_contra hcontra
      rw [checkAndIncrement, if_neg hcontra] at h1
      exact Bool.false_ne_true h1
    have hstep : (checkAndIncrement cfg t v).2.perId v = t.perId v + 1 := by
      rw [checkAndIncrement, if_pos hcond]
      dsimp only
      rw [if_pos rfl]
    have hfull : cfg.idCap ≤ (checkAndIncrement cfg t v).2.perId v := by
      rw [hstep, hslot]
    rw [checkAndIncrement_blocked_of_idCap hfull] at h2
    exact Bool.false_ne_true h2
  · intro t hslot hboth
    obtain ⟨h1, h2⟩ := hboth
    have hcond : t.perId v < cfg.idCap ∧ t.globalCount < cfg.globalCap := by
      by_contra hcontra
      rw [checkAndIncrement, if_neg hcontra] at h1
      exact Bool.false_ne_true h1
    have hstep : (checkAndIncrement cfg t v).2.globalCount = t.globalCount + 1 := by
      rw [checkAndIncrement, if_pos hcond]
    have hfull : cfg.globalCap ≤ (checkAndIncrement cfg t v).2.globalCount := by
      rw [hstep, hslot]
    rw [checkAndIncrement_blocked_of_globalCap hfull] at h2
    exact Bool.false_ne_true h2

theorem c1_checkAndIncrement_exactly_one_allowed_witness :
    (runCalls { idCap := 1, globalCap := 100 } "alice" 3 freshLedger).count true
      = 1 :=
  (c1_checkAndIncrement_exactly_one_allowed { idCap := 1, globalCap := 100 }
    freshLedger "alice" "bob" "carol" 3 rfl rfl (by decide) (by decide)).1

/-- C4: the counters are lifetime quotas: once the per-identity counter of an identity
has reached its cap, every subsequent checkAndIncrement for that identity returns
allowed = false, after any further sequence of operations; likewise once the global
counter has reached its cap, every subsequent call by any identity returns allowed =
false. The model offers no reset transition: checkAndIncrement is its only
operation. -/
theorem c4_lifetime_quota_never_reset (cfg : LedgerConfig) (s : LedgerState)
    (u : String) (ops : List String) :
    (cfg.idCap ≤ s.perId u →
      (checkAndIncrement cfg (runSeq cfg ops s) u).1 = false)
    ∧ (cfg.globalCap ≤ s.globalCount →
      ∀ v, (checkAndIncrement cfg (runSeq cfg ops s) v).1 = false) := by
  constructor
  · intro h
    have hle : cfg.idCap ≤ (runSeq cfg ops s).perId u :=
      Nat.le_trans h (perId_le_runSeq cfg ops s u)
    rw [checkAndIncrement_blocked_of_idCap hle]
  · intro h v
    have hle : cfg.globalCap ≤ (runSeq cfg ops s).globalCount :=
      Nat.le_trans h (globalCount_le_runSeq cfg ops s)
    rw [checkAndIncrement_blocked_of_globalCap hle]

theorem c4_lifetime_quota_never_reset_witness :
    (checkAndIncrement { idCap := 1, globalCap := 100 }
      (runSeq { idCap := 1, globalCap := 100 } ["bob", "alice", "carol"] cappedState)
      "alice").1 = false :=
  (c4_lifetime_quota_never_reset { idCap := 1, globalCap := 100 } cappedState
    "alice" ["bob", "alice", "carol"]).1 (by decide)

/-! ## Normalization, interpreter, scorer, renderer and usage-client theorems -/

/-- C7: every item produced by CatalogConnector normalization, and hence every item
entering any downstream stage, has non-empty id, name, image reference and purchase
reference and a positive price; any source record failing one of these checks is
dropped at normalization time (normalizeRecord returns none), so it never reaches a
downstream stage. -/
theorem c7_normalization_invariant (rs : List RawRecord) :
    (∀ it ∈ normalize rs,
      it.id ≠ "" ∧ it.name ≠ "" ∧ it.image_url ≠ "" ∧ it.buy_url ≠ ""
        ∧ 0 < it.price)
    ∧ (∀ r ∈ rs,
      ¬(r.id ≠ "" ∧ r.name ≠ "" ∧ r.image_url ≠ "" ∧ r.buy_url ≠ ""
          ∧ 0 < r.price) →
        normalizeRecord r = none) := by
  constructor
  · intro it hit
    rw [normalize, List.mem_filterMap] at hit
    obtain ⟨r, -, hr⟩ := hit
    rw [normalizeRecord] at hr
    split at hr
    · rename_i hcond
      cases hr
      exact hcond
    · exact absurd hr (Option.some_ne_none it).symm
  · intro r _ hfail
    rw [normalizeRecord, if_neg hfail]

theorem c7_normalization_invariant_witness :
    itemGood.id ≠ "" ∧ itemGood.name ≠ "" ∧ itemGood.image_url ≠ ""
      ∧ itemGood.buy_url ≠ "" ∧ 0 < itemGood.price :=
  (c7_normalization_invariant [recGood, recBad]).1 itemGood (by decide)

/-- C6: RequestInterpreter.parse is a total function (so it never raises to the
caller) and, whenever the input text has at least one token (the spec requires
non-empty free text), the returned ParsedRequest has a non-empty keywords list,
whatever the completion service returned — including failure (none) and a malformed
structured object. -/
theorem c6_parse_keywords_populated (text : String) (svc : Option ParsedRequest)
    (htok : tokenize text ≠ []) :
    (parse text svc).keywords ≠ [] := by
  cases svc with
  | none =>
    rw [parse]
    exact htok
  | some r =>
    rw [parse]
    split
    · exact htok
    · rename_i h
      exact h

theorem c6_parse_keywords_populated_witness :
    (parse "beach party" none).keywords ≠ [] :=
  c6_parse_keywords_populated "beach party" none (by decide)

/-- C8: the PairScorer fallback is a plain total function (it never raises) that
returns compatible = true with score 0.5 when the two items map to the same coarse
style bucket, and compatible = false with score 0.2 otherwise. -/
theorem c8_fallback_score_rule (top bottom : Item) :
    (styleBucket top = styleBucket bottom →
      fallbackScore top bottom = { compatible := true, score := 1/2 })
    ∧ (styleBucket top ≠ styleBucket bottom →
      fallbackScore top bottom = { compatible := false, score := 1/5 }) := by
  constructor
  · intro h
    rw [fallbackScore, if_pos h]
  · intro h
    rw [fallbackScore, if_neg h]

theorem c8_fallback_score_rule_witness :
    fallbackScore itemTop itemBottom
      = { compatible := true, score := 1/2 } :=
  (c8_fallback_score_rule itemTop itemBottom).1 (by decide)

theorem fallbackComposite_ne_empty (m t b : String) :
    fallbackComposite m t b ≠ "" := by
  intro h
  have hlen := congrArg String.length h
  rw [fallbackComposite] at hlen
  simp only [String.length_append, String.length_empty] at hlen
  have hpos : 0 < "overlay-preview:".length := by decide
  omega

/-- C9: whenever pass 1 (or pass 2) of the composite renderer fails, the returned
artifact has status degraded and a non-empty image reference produced by the
deterministic fallback compositor; the result is an ordinary value, so the failure is
never surfaced as an unhandled error and never fails the request. -/
theorem c9_render_degraded_on_pass_failure
    (pass1 pass2 : String → String → Option String) (m t b : String) :
    (pass1 m t = none →
      (generate_full_outfit_tryon pass1 pass2 m t b).status = RenderStatus.degraded
      ∧ (generate_full_outfit_tryon pass1 pass2 m t b).imageRef ≠ "")
    ∧ (∀ img1, pass1 m t = some img1 → pass2 img1 b = none →
      (generate_full_outfit_tryon pass1 pass2 m t b).status = RenderStatus.degraded
      ∧ (generate_full_outfit_tryon pass1 pass2 m t b).imageRef ≠ "") := by
  constructor
  · intro h
    rw [generate_full_outfit_tryon, h]
    exact ⟨rfl, fallbackComposite_ne_empty m t b⟩
  · intro img1 h1 h2
    constructor
    · simp [generate_full_outfit_tryon, h1, h2]
    · simp only [generate_full_outfit_tryon, h1, h2]
      exact fallbackComposite_ne_empty m t b

theorem c9_render_degraded_on_pass_failure_witness :
    (generate_full_outfit_tryon (fun _ _ => none) (fun _ _ => none)
      "model.jpg" "top.jpg" "bottom.jpg").status = RenderStatus.degraded
    ∧ (generate_full_outfit_tryon (fun _ _ => none) (fun _ _ => none)
      "model.jpg" "top.jpg" "bottom.jpg").imageRef ≠ "" :=
  (c9_render_degraded_on_pass_failure (fun _ _ => none) (fun _ _ => none)
    "model.jpg" "top.jpg" "bottom.jpg").1 rfl

/-- C10: on any failed usage request the frontend API client getUsage returns the
fixed default usage object instead of throwing, and under that default the client
behaves as if the identity had its full quota remaining: both the canBrowse and the
canTryOn checks of the app succeed. -/
theorem c10_getUsage_default_on_error (e : String) :
    getUsage (Except.error e) = defaultUsage
    ∧ canBrowse (getUsage (Except.error e)) = true
    ∧ canTryOn (getUsage (Except.error e)) = true
    ∧ (getUsage (Except.error e)).browse_count = 0
    ∧ (getUsage (Except.error e)).tryon_count = 0 :=
  ⟨rfl, rfl, rfl, rfl, rfl⟩

/-! ## ItemFilter theorems -/

theorem chunkList_flatten_aux {α : Type u} (B : Nat) :
    ∀ (n : Nat) (l : List α), l.length ≤ n → (chunkList B l).flatten = l := by
  intro n
  induction n with
  | zero =>
    intro l hl
    have hnil : l = [] := List.length_eq_zero.mp (Nat.le_zero.mp hl)
    subst hnil
    simp [chunkList]
  | succ n ih =>
    intro l hl
    match l with
    | [] => simp [chunkList]
    | x :: xs =>
      rw [chunkList]
      by_cases hB : B = 0
      · rw [dif_pos hB]
        simp
      · rw [dif_neg hB]
        rw [List.flatten_cons]
        have hlen : ((x :: xs).drop B).length ≤ n := by
          simp only [List.length_drop, List.length_cons]
          have hl' : xs.length + 1 ≤ n + 1 := by simpa using hl
          omega
        rw [ih _ hlen]
        exact List.take_append_drop B (x :: xs)

theorem chunkList_flatten {α : Type u} (B : Nat) (l : List α) :
    (chunkList B l).flatten = l :=
  chunkList_flatten_aux B l.length l (Nat.le_refl _)

theorem flatMap_filter_append_perm {α : Type u} (f : List α → α → Bool) :
    ∀ c : List (List α),
      ((c.flatMap fun b => b.filter (f b))
        ++ (c.flatMap fun b => b.filter (fun x => !(f b x)))).Perm c.flatten := by
  intro c
  induction c with
  | nil => simp
  | cons b c ih =>
    simp only [List.flatMap_cons, List.flatten_cons]
    refine List.Perm.trans ?_ (List.Perm.append (List.filter_append_perm (f b) b) ih)
    simp only [List.append_assoc]
    exact List.Perm.append_left _ (List.perm_append_comm_assoc _ _ _)

/-- C5: for every input item list and every batch size, the retained and the rejected
item ids of ItemFilter together are a permutation of the input ids — so their union
equals the input id set, with no duplicates when the input has none — regardless of
which per-batch decision (primary classification or deterministic fallback) each
batch used. -/
theorem c5_item_filter_partition (B : Nat) (dec : List Item → Item → Bool)
    (items : List Item) :
    ((filterRetained B dec items ++ filterRejected B dec items).map Item.id).Perm
      (items.map Item.id)
    ∧ ((items.map Item.id).Nodup →
      ((filterRetained B dec items
        ++ filterRejected B dec items).map Item.id).Nodup) := by
  have hperm : (filterRetained B dec items ++ filterRejected B dec items).Perm
      items := by
    have h1 := flatMap_filter_append_perm dec (chunkList B items)
    rw [chunkList_flatten] at h1
    exact h1
  have hmap := hperm.map Item.id
  exact ⟨hmap, fun h => hmap.nodup_iff.mpr h⟩

theorem c5_item_filter_partition_witness :
    ((filterRetained 10 decByCategory [itemTop, itemBottom]
      ++ filterRejected 10 decByCategory [itemTop, itemBottom]).map Item.id).Nodup :=
  (c5_item_filter_partition 10 decByCategory [itemTop, itemBottom]).2 (by decide)

/-! ## CombinationSelector theorems -/

theorem priceSimilarity_bounds {p q : ℚ} (hp : 0 < p) (hq : 0 < q) :
    0 ≤ priceSimilarity p q ∧ priceSimilarity p q ≤ 1 := by
  have hm : 0 < max p q := lt_max_of_lt_left hp
  rw [priceSimilarity, if_neg hm.ne']
  constructor
  · rw [sub_nonneg, div_le_one hm]
    rcases le_total p q with h | h
    · rw [abs_sub_comm, abs_of_nonneg (sub_nonneg.mpr h)]
      have hqq : q - p ≤ q := by linarith
      exact le_trans hqq (le_max_right p q)
    · rw [abs_of_nonneg (sub_nonneg.mpr h)]
      have hpp : p - q ≤ p := by linarith
      exact le_trans hpp (le_max_left p q)
  · have habs : 0 ≤ |p - q| / max p q := div_nonneg (abs_nonneg _) hm.le
    linarith

theorem positionBonus_bounds {i j : Nat} (hi : i < sideBound) (hj : j < sideBound) :
    0 ≤ positionBonus i j ∧ positionBonus i j ≤ 1 := by
  rw [sideBound] at hi hj
  have hi2 : (i : ℚ) ≤ 2 := by exact_mod_cast Nat.lt_succ_iff.mp hi
  have hj2 : (j : ℚ) ≤ 2 := by exact_mod_cast Nat.lt_succ_iff.mp hj
  have hi0 : (0 : ℚ) ≤ (i : ℚ) := Nat.cast_nonneg i
  have hj0 : (0 : ℚ) ≤ (j : ℚ) := Nat.cast_nonneg j
  have hpb : positionBonus i j = 1 - ((i : ℚ) + (j : ℚ)) / 6 := by
    rw [positionBonus, sideBound]
    norm_num
  constructor
  · rw [hpb, sub_nonneg, div_le_one (by norm_num : (0:ℚ) < 6)]
    linarith
  · rw [hpb]
    have hdiv : 0 ≤ ((i : ℚ) + (j : ℚ)) / 6 := by positivity
    linarith

theorem mem_enumFrom_bounds {α : Type u} :
    ∀ {l : List α} {n i : Nat} {x : α},
      (i, x) ∈ l.enumFrom n → i < n + l.length ∧ x ∈ l := by
  intro l
  induction l with
  | nil =>
    intro n i x h
    simp at h
  | cons a as ih =>
    intro n i x h
    rw [List.enumFrom_cons] at h
    rcases List.mem_cons.mp h with h1 | h1
    · cases h1
      constructor
      · simp only [List.length_cons]
        omega
      · exact List.mem_cons_self a as
    · obtain ⟨hlt, hmem⟩ := ih h1
      constructor
      · simp only [List.length_cons]
        omega
      · exact List.mem_cons_of_mem a hmem

theorem mem_enum_bounds {α : Type u} {l : List α} {i : Nat} {x : α}
    (h : (i, x) ∈ l.enum) : i < l.length ∧ x ∈ l := by
  have hb := mem_enumFrom_bounds (l := l) (n := 0) (i := i) (x := x)
  rw [List.enum] at h
  simpa using hb h

/-- C2: every combination in the selector output was retained only because
compatible = true or its compatibility score is at least 0.4, and its match score
lies in the interval 0 to 1, given that the pair verdicts carry scores in 0 to 1
(the CompatibilityVerdict invariant) and all item prices are positive (the
normalization invariant). -/
theorem c2_retention_and_match_score_range
    (verdict : Item → Item → CompatibilityVerdict) (tops bottoms : List Item)
    (hv : ∀ t b, 0 ≤ (verdict t b).score ∧ (verdict t b).score ≤ 1)
    (hpt : ∀ it ∈ tops, 0 < it.price) (hpb : ∀ it ∈ bottoms, 0 < it.price) :
    ∀ c ∈ create_outfit_combinations verdict tops bottoms,
      (c.compatible = true ∨ (2/5 : ℚ) ≤ c.compatScore)
      ∧ 0 ≤ c.matchScore ∧ c.matchScore ≤ 1 := by
  intro c hc
  rw [create_outfit_combinations] at hc
  have hc1 : c ∈ List.insertionSort comboOrder
      ((allPairs verdict tops bottoms).filter retainPair) :=
    List.take_subset 3 _ hc
  rw [List.mem_insertionSort, List.mem_filter] at hc1
  obtain ⟨hmem, hret⟩ := hc1
  refine ⟨?_, ?_⟩
  · rw [retainPair, Bool.or_eq_true] at hret
    rcases hret with h | h
    · exact Or.inl h
    · exact Or.inr (of_decide_eq_true h)
  · rw [allPairs, List.mem_flatMap] at hmem
    obtain ⟨p, hp, hmem2⟩ := hmem
    rw [List.mem_map] at hmem2
    obtain ⟨q, hq, hqe⟩ := hmem2
    obtain ⟨i, t⟩ := p
    obtain ⟨j, b⟩ := q
    obtain ⟨hilen, hit⟩ := mem_enum_bounds hp
    obtain ⟨hjlen, hjb⟩ := mem_enum_bounds hq
    have hiM : i < sideBound := lt_of_lt_of_le hilen (List.length_take_le _ _)
    have hjM : j < sideBound := lt_of_lt_of_le hjlen (List.length_take_le _ _)
    have htp : 0 < t.price := hpt t (List.take_subset _ _ hit)
    have hbp : 0 < b.price := hpb b (List.take_subset _ _ hjb)
    obtain ⟨hv0, hv1⟩ := hv t b
    obtain ⟨hps0, hps1⟩ := priceSimilarity_bounds htp hbp
    obtain ⟨hpo0, hpo1⟩ := positionBonus_bounds hiM hjM
    subst hqe
    simp only [scorePair]
    constructor
    · linarith
    · linarith

theorem c2_retention_and_match_score_range_witness :
    (sampleCombo.compatible = true ∨ (2/5 : ℚ) ≤ sampleCombo.compatScore)
    ∧ 0 ≤ sampleCombo.matchScore ∧ sampleCombo.matchScore ≤ 1 :=
  c2_retention_and_match_score_range verdictConst [itemTop] [itemBottom]
    (fun t b => ⟨by norm_num [verdictConst], by norm_num [verdictConst]⟩)
    (by decide) (by decide) sampleCombo
    (by simp [create_outfit_combinations, allPairs, sampleCombo, retainPair,
      scorePair, verdictConst, sideBound])

/-- C3: for every input of tops and bottoms (and every pair-verdict function), the
selector returns at most 3 combinations, sorted by the deterministic order:
descending match score with ties broken by lower total price. -/
theorem c3_selector_bounded_and_sorted
    (verdict : Item → Item → CompatibilityVerdict) (tops bottoms : List Item) :
    (create_outfit_combinations verdict tops bottoms).length ≤ 3
    ∧ List.Sorted comboOrder (create_outfit_combinations verdict tops bottoms) := by
  constructor
  · rw [create_outfit_combinations]
    exact List.length_take_le 3 _
  · rw [create_outfit_combinations]
    exact List.Pairwise.sublist (List.take_sublist 3 _)
      (List.sorted_insertionSort comboOrder _)

end OutfitPlanner
